import Mathlib

/-!
Shallow embedding of the geometry normalization and rendering pipeline of
`src/components/SceneComponents.tsx` (the `PlyModel` component), together
with the three.js `BufferGeometry` operations it invokes
(`computeBoundingBox`, `center`, `computeVertexNormals`) and the `Box3`
helpers (`getSize`, `getCenter`).  Coordinates are modelled as exact
rationals; the one primitive that exact rationals lack, the square root used
by three.js `Vector3.normalize`, is passed as an explicit parameter `sq`
(every theorem below holds for an arbitrary `sq`).
-/

namespace Scene

/-- A 3-component vector (three.js `Vector3`). -/
@[ext]
structure Vec3 where
  x : ℚ
  y : ℚ
  z : ℚ
deriving DecidableEq

def vadd (a b : Vec3) : Vec3 := ⟨a.x + b.x, a.y + b.y, a.z + b.z⟩

def vsub (a b : Vec3) : Vec3 := ⟨a.x - b.x, a.y - b.y, a.z - b.z⟩

def vneg (a : Vec3) : Vec3 := ⟨-a.x, -a.y, -a.z⟩

def vscale (k : ℚ) (a : Vec3) : Vec3 := ⟨k * a.x, k * a.y, k * a.z⟩

def vmin (a b : Vec3) : Vec3 := ⟨min a.x b.x, min a.y b.y, min a.z b.z⟩

def vmax (a b : Vec3) : Vec3 := ⟨max a.x b.x, max a.y b.y, max a.z b.z⟩

/-- three.js `Vector3.crossVectors`. -/
def vcross (a b : Vec3) : Vec3 :=
  ⟨a.y * b.z - a.z * b.y, a.z * b.x - a.x * b.z, a.x * b.y - a.y * b.x⟩

/-- A decoded `BufferGeometry` as handed to `PlyModel` by the loader: a
`position` attribute, optional `color` and `normal` attributes, and an
optional index.  In three.js `geometry.index` is `null` or a
`BufferAttribute`; an empty index is the non-null attribute with
`count = 0`, modelled here as `some []`. -/
structure Geometry where
  positions : List Vec3
  colors : Option (List Vec3)
  normals : Option (List Vec3)
  index : Option (List ℕ)
deriving DecidableEq

/-- A non-empty axis-aligned box (three.js `Box3` once at least one point
has been folded in). -/
structure Box3 where
  min : Vec3
  max : Vec3
deriving DecidableEq

/-- `Box3.expandByPoint`, the step of `Box3.setFromBufferAttribute`. -/
def boxExpand (b : Box3) (q : Vec3) : Box3 := ⟨vmin b.min q, vmax b.max q⟩

/-- three.js `BufferGeometry.computeBoundingBox` (line 107): fold min/max
over all positions.  An empty position attribute leaves the box empty
(`+inf` min, `-inf` max), modelled as `none`. -/
def computeBoundingBox (ps : List Vec3) : Option Box3 :=
  match ps with
  | [] => none
  | p :: rest => some (rest.foldl boxExpand ⟨p, p⟩)

/-- three.js `Box3.getSize` (line 109): `max - min`, the zero vector for an
empty box. -/
def boxGetSize : Option Box3 → Vec3
  | none => ⟨0, 0, 0⟩
  | some b => vsub b.max b.min

/-- three.js `Box3.getCenter` (line 119 and inside `center()`):
`(min + max) / 2`, the zero vector for an empty box. -/
def boxGetCenter : Option Box3 → Vec3
  | none => ⟨0, 0, 0⟩
  | some b => vscale (1 / 2) (vadd b.min b.max)

/-- Line 109: `box.getSize(new Vector3())`. -/
def boundingSizeOf (g : Geometry) : Vec3 :=
  boxGetSize (computeBoundingBox g.positions)

/-- Line 110: `Math.max(size.x, size.y, size.z)`. -/
def maxDimOf (g : Geometry) : ℚ :=
  max (max (boundingSizeOf g).x (boundingSizeOf g).y) (boundingSizeOf g).z

/-- Lines 111-112: `desired = 2; auto = maxDim > 0 ? desired / maxDim : 1`. -/
def autoScaleOf (g : Geometry) : ℚ :=
  if maxDimOf g > 0 then 2 / maxDimOf g else 1

/-- three.js `Vector3.normalize`: `divideScalar(length() || 1)`.  `sq` is
the square-root primitive applied to the squared length. -/
def vnormalize (sq : ℚ → ℚ) (v : Vec3) : Vec3 :=
  let l := sq (v.x ^ 2 + v.y ^ 2 + v.z ^ 2)
  if l = 0 then v else vscale (1 / l) v

/-- three.js `BufferGeometry.translate`: `applyMatrix4` with a translation
matrix.  `applyMatrix4` adds `t` to every position, and — when a `normal`
attribute is present — applies the normal matrix (the identity for a pure
translation) to every normal via `applyNormalMatrix`, which ends in
`normalize()`: so the normal attribute is unit-normalized.  (The `tangent`
attribute `applyMatrix4` would also transform never exists here: `PLYLoader`
produces none.) -/
def translate (sq : ℚ → ℚ) (g : Geometry) (t : Vec3) : Geometry :=
  { g with
    positions := g.positions.map (fun p => vadd p t)
    normals := g.normals.map (fun ns => ns.map (vnormalize sq)) }

/-- three.js `BufferGeometry.center()` as called on line 117: recompute the
bounding box and translate by the negated center. -/
def centerBulk (sq : ℚ → ℚ) (g : Geometry) : Geometry :=
  translate sq g (vneg (boxGetCenter (computeBoundingBox g.positions)))

lemma centerBulk_positions (sq : ℚ → ℚ) (g : Geometry) :
    (centerBulk sq g).positions =
      g.positions.map
        (fun p => vadd p (vneg (boxGetCenter (computeBoundingBox g.positions)))) :=
  rfl

lemma centerBulk_normals (sq : ℚ → ℚ) (g : Geometry) :
    (centerBulk sq g).normals = g.normals.map (fun ns => ns.map (vnormalize sq)) :=
  rfl

/-- Lines 119-126: the explicit fallback loop subtracting the bounding-box
center from every position component. -/
def centerManual (g : Geometry) : Geometry :=
  let c := boxGetCenter (computeBoundingBox g.positions)
  { g with positions := g.positions.map (fun p => vsub p c) }

/-- Split a flat index list into consecutive vertex-index triples, as the
`i += 3` loop of `computeVertexNormals` does; a trailing incomplete group is
dropped. -/
def indexTriples : List ℕ → List (ℕ × ℕ × ℕ)
  | a :: b :: c :: rest => (a, b, c) :: indexTriples rest
  | _ => []

/-- Face normal `(pC - pB) × (pA - pB)` of the triangle `(ia, ib, ic)`, as
in three.js `computeVertexNormals`.  An out-of-range index reads the zero
vector here (three.js would read NaN components; no claim depends on the
value at an out-of-range index, only on counts). -/
def faceN (ps : List Vec3) (ia ib ic : ℕ) : Vec3 :=
  let pA := ps.getD ia ⟨0, 0, 0⟩
  let pB := ps.getD ib ⟨0, 0, 0⟩
  let pC := ps.getD ic ⟨0, 0, 0⟩
  vcross (vsub pC pB) (vsub pA pB)

/-- Add `v` into slot `i` of the accumulator array. -/
def addAt (acc : List Vec3) (i : ℕ) (v : Vec3) : List Vec3 :=
  acc.set i (vadd (acc.getD i ⟨0, 0, 0⟩) v)

/-- One iteration of the indexed loop of `computeVertexNormals`: accumulate
the face normal onto the three vertices of the face. -/
def accumFace (ps : List Vec3) (acc : List Vec3) (t : ℕ × ℕ × ℕ) : List Vec3 :=
  let fn := faceN ps t.1 t.2.1 t.2.2
  addAt (addAt (addAt acc t.1 fn) t.2.1 fn) t.2.2 fn

/-- Indexed branch of three.js `computeVertexNormals`: starting from one
zero normal per vertex, accumulate every face normal onto the face's three
vertices. -/
def accumNormals (ps : List Vec3) (idx : List ℕ) : List Vec3 :=
  (indexTriples idx).foldl (accumFace ps) (List.replicate ps.length ⟨0, 0, 0⟩)

/-- Non-indexed branch of `computeVertexNormals`: every consecutive vertex
triple gets its flat face normal.  (A trailing incomplete triple receives
the zero vector here; three.js reads NaN there.  This branch is never taken
by `PlyModel`, which calls `computeVertexNormals` only when an index is
present.) -/
def flatNormals : List Vec3 → List Vec3
  | a :: b :: c :: rest =>
      let fn := vcross (vsub c b) (vsub a b)
      fn :: fn :: fn :: flatNormals rest
  | [_, _] => [⟨0, 0, 0⟩, ⟨0, 0, 0⟩]
  | [_] => [⟨0, 0, 0⟩]
  | [] => []

/-- three.js `BufferGeometry.computeVertexNormals` (line 131): accumulate
face normals per vertex, then normalize each accumulated vector, producing
one normal per position. -/
def computeVertexNormals (sq : ℚ → ℚ) (g : Geometry) : Geometry :=
  let raw :=
    match g.index with
    | some idx => accumNormals g.positions idx
    | none => flatNormals g.positions
  { g with normals := some (raw.map (vnormalize sq)) }

/-- Lines 129-132: `if (!geometry.attributes.normal && geometry.index)
geometry.computeVertexNormals()`. -/
def normalStep (sq : ℚ → ℚ) (g : Geometry) : Geometry :=
  if g.normals.isNone && g.index.isSome then computeVertexNormals sq g else g

/-- The component state the `useEffect` body reads and writes: the
`autoScale` React state (initially `useState(1)`) and the loaded geometry. -/
structure PlyState where
  autoScale : ℚ
  geometry : Geometry
deriving DecidableEq

/-- The four normalization steps named by the specification, in source
order inside the `try` block (lines 105-135). -/
inductive Step
  | boundingVolume
  | scaleDerivation
  | recentering
  | normalDerivation
deriving DecidableEq

/-- Effect of one step on the component state.  `boundingVolume` only
caches the box on the geometry (no observable attribute change);
`scaleDerivation` computes `auto` and stores it via `setAutoScale`;
`recentering` is `geometry.center()`; `normalDerivation` is the gated
`computeVertexNormals` call. -/
def applyStep (sq : ℚ → ℚ) : Step → PlyState → PlyState
  | .boundingVolume, st => st
  | .scaleDerivation, st => { st with autoScale := autoScaleOf st.geometry }
  | .recentering, st => { st with geometry := centerBulk sq st.geometry }
  | .normalDerivation, st => { st with geometry := normalStep sq st.geometry }

def stepOrder : List Step :=
  [.boundingVolume, .scaleDerivation, .recentering, .normalDerivation]

/-- Run the steps in order; `failAt = some s` means step `s` raises an
exception, so it and every later step have no effect — the `catch (e) {}`
block on lines 133-135 swallows the exception and the effect body returns
normally. -/
def runSteps (sq : ℚ → ℚ) : List Step → Option Step → PlyState → PlyState
  | [], _, st => st
  | s :: rest, failAt, st =>
      if failAt = some s then st
      else runSteps sq rest failAt (applyStep sq s st)

/-- The whole `useEffect` body (lines 102-136) on a freshly loaded
geometry: initial `autoScale = 1`, then the four steps with an optional
fault. -/
def runPipeline (sq : ℚ → ℚ) (g : Geometry) (failAt : Option Step) : PlyState :=
  runSteps sq stepOrder failAt ⟨1, g⟩

/-- The two rendering modes of the specification. -/
inductive RenderMode
  | POINT_CLOUD
  | SURFACE
deriving DecidableEq

/-- Line 149: the point-cloud / surface decision is `if (!geometry.index)`,
i.e. purely whether the index attribute is null. -/
def classify (g : Geometry) : RenderMode :=
  if g.index.isNone then .POINT_CLOUD else .SURFACE

/-- Line 146: `Boolean(geometry.attributes.color)` — presence only. -/
def hasVertexColors (g : Geometry) : Bool := g.colors.isSome

/-- The observable rendering decision of the returned JSX element. -/
structure RenderOutput where
  mode : RenderMode
  scaleVec : Vec3
  pointSize : Option ℚ
  vertexColors : Bool
deriving DecidableEq

/-- Lines 148-167.  Both branches pass
`scale={[autoScale*scale, autoScale*scale, autoScale*scale]}`; the points
branch additionally sets `size={0.02 * scale}` on its material (`0.02`
is the rational `1/50`). -/
def renderPly (g : Geometry) (autoScale userScale : ℚ) : RenderOutput :=
  if g.index.isNone then
    { mode := .POINT_CLOUD
      scaleVec := ⟨autoScale * userScale, autoScale * userScale, autoScale * userScale⟩
      pointSize := some (1 / 50 * userScale)
      vertexColors := hasVertexColors g }
  else
    { mode := .SURFACE
      scaleVec := ⟨autoScale * userScale, autoScale * userScale, autoScale * userScale⟩
      pointSize := none
      vertexColors := hasVertexColors g }

/-- Full component behaviour for one loaded geometry: run the effect, then
render with the resulting state and a user display scale. -/
def renderResult (sq : ℚ → ℚ) (g : Geometry) (userScale : ℚ) : RenderOutput :=
  renderPly (runPipeline sq g none).geometry (runPipeline sq g none).autoScale userScale

/-- Two distinct vertices on the x axis: bounding size `(1,0,0)`. -/
def gLine : Geometry := ⟨[⟨0, 0, 0⟩, ⟨1, 0, 0⟩], none, none, none⟩

/-- A single vertex, no index (degenerate, zero extent). -/
def gPoint : Geometry := ⟨[⟨5, 5, 5⟩], none, none, none⟩

/-- A geometry whose index attribute is present but empty. -/
def gEmptyIdx : Geometry := ⟨[⟨0, 0, 0⟩], none, none, some []⟩

/-- One indexed triangle, no normals. -/
def gTri : Geometry :=
  ⟨[⟨0, 0, 0⟩, ⟨1, 0, 0⟩, ⟨0, 1, 0⟩], none, none, some [0, 1, 2]⟩

/-- A malformed buffer: two positions but only one color entry. -/
def gMis : Geometry := ⟨[⟨0, 0, 0⟩, ⟨1, 0, 0⟩], some [⟨1, 0, 0⟩], none, none⟩

/-- A buffer that arrives with a non-unit normal attribute. -/
def gNrm : Geometry :=
  ⟨[⟨0, 0, 0⟩, ⟨2, 0, 0⟩], none, some [⟨0, 0, 3⟩, ⟨0, 0, 3⟩], none⟩

/-- A square-root primitive that is correct (agrees with the real square
root) at the one squared length occurring in `gNrm`, namely `9 = 3 * 3`. -/
def sqC : ℚ → ℚ := fun q => if q = 9 then 3 else q

/-! ### Helper lemmas about the bounding box -/

lemma foldl_boxExpand_le (l : List Vec3) :
    ∀ b : Box3, b.min.x ≤ b.max.x → b.min.y ≤ b.max.y → b.min.z ≤ b.max.z →
      (l.foldl boxExpand b).min.x ≤ (l.foldl boxExpand b).max.x ∧
      (l.foldl boxExpand b).min.y ≤ (l.foldl boxExpand b).max.y ∧
      (l.foldl boxExpand b).min.z ≤ (l.foldl boxExpand b).max.z := by
  induction l with
  | nil => intro b hx hy hz; exact ⟨hx, hy, hz⟩
  | cons q rest ih =>
      intro b hx hy hz
      rw [List.foldl_cons]
      refine ih (boxExpand b q) ?_ ?_ ?_ <;>
        simp only [boxExpand, vmin, vmax] <;>
        exact le_trans (min_le_left _ _)
          (le_trans (by assumption) (le_max_left _ _))

lemma boundingSize_nonneg (g : Geometry) :
    0 ≤ (boundingSizeOf g).x ∧ 0 ≤ (boundingSizeOf g).y ∧
      0 ≤ (boundingSizeOf g).z := by
  unfold boundingSizeOf computeBoundingBox
  cases hps : g.positions with
  | nil => simp [boxGetSize]
  | cons p rest =>
      have h := foldl_boxExpand_le rest ⟨p, p⟩ le_rfl le_rfl le_rfl
      simp only [boxGetSize, vsub]
      exact ⟨by linarith [h.1], by linarith [h.2.1], by linarith [h.2.2]⟩

lemma maxDim_nonneg (g : Geometry) : 0 ≤ maxDimOf g :=
  le_trans (boundingSize_nonneg g).2.2 (le_max_right _ _)

/-! ### Claim theorems -/

/-- C1 (amended): the topology classification returns POINT_CLOUD exactly
when the index attribute is absent (null); a present-but-empty index yields
SURFACE.  The rendering primitive follows this classification. -/
theorem classify_index_absent (g : Geometry) (a s : ℚ) :
    (classify g = RenderMode.POINT_CLOUD ↔ g.index = none) ∧
    (renderPly g a s).mode = classify g := by
  cases h : g.index <;> simp [classify, renderPly, h]

/-- C1 counterexample: on a geometry whose index attribute is present but
empty, the code classifies SURFACE (renders a mesh), so "POINT_CLOUD iff
indices absent or empty" is false as stated. -/
theorem classify_empty_index_cex :
    gEmptyIdx.index = some [] ∧ classify gEmptyIdx = RenderMode.SURFACE ∧
    ¬(classify gEmptyIdx = RenderMode.POINT_CLOUD ↔
        (gEmptyIdx.index = none ∨ gEmptyIdx.index = some [])) := by
  refine ⟨rfl, rfl, ?_⟩
  intro h
  exact absurd (h.2 (Or.inr rfl)) (by decide)

/-- C2: the auto-fit scale is `2 / maxDim` whenever the largest
bounding-box dimension is strictly positive, is exactly `1` when it is
zero, and is in every case a (finite) strictly positive rational — never an
infinity or NaN. -/
theorem autoScale_spec (g : Geometry) :
    (0 < maxDimOf g → autoScaleOf g = 2 / maxDimOf g) ∧
    (maxDimOf g = 0 → autoScaleOf g = 1) ∧
    0 < autoScaleOf g := by
  refine ⟨fun h => by simp [autoScaleOf, h], fun h => by simp [autoScaleOf, h], ?_⟩
  by_cases h : 0 < maxDimOf g
  · simp only [autoScaleOf, gt_iff_lt, h, if_pos]
    positivity
  · simp [autoScaleOf, h]

/-- Witness for C2 at two concrete inputs: a two-vertex segment
(`maxDim = 1`, scale `2`) and a single point (`maxDim = 0`, scale `1`). -/
theorem autoScale_spec_witness :
    (0 < maxDimOf gLine ∧ autoScaleOf gLine = 2 / maxDimOf gLine) ∧
    (maxDimOf gPoint = 0 ∧ autoScaleOf gPoint = 1) := by
  have h1 : maxDimOf gLine = 1 := by
    norm_num [maxDimOf, boundingSizeOf, computeBoundingBox, boxGetSize, vsub,
      boxExpand, vmin, vmax, gLine, min_def, max_def]
  have h2 : maxDimOf gPoint = 0 := by
    norm_num [maxDimOf, boundingSizeOf, computeBoundingBox, boxGetSize, vsub,
      boxExpand, vmin, vmax, gPoint, min_def, max_def]
  refine ⟨⟨?_, (autoScale_spec gLine).1 ?_⟩,
    ⟨h2, (autoScale_spec gPoint).2.1 h2⟩⟩ <;> rw [h1] <;> norm_num

/-- C3 (amended): an exception in any step is caught and the effect still
returns (non-fatal), but only a failure in the bounding-volume or
scale-derivation step leaves the buffer unmodified with scale exactly 1;
a failure during recentering leaves the already-derived scale stored, and a
failure during normal derivation additionally leaves the recentering
applied. -/
theorem pipeline_failure_fallback (sq : ℚ → ℚ) (g : Geometry) :
    runPipeline sq g (some Step.boundingVolume) = ⟨1, g⟩ ∧
    runPipeline sq g (some Step.scaleDerivation) = ⟨1, g⟩ ∧
    runPipeline sq g (some Step.recentering) = ⟨autoScaleOf g, g⟩ ∧
    runPipeline sq g (some Step.normalDerivation) =
      ⟨autoScaleOf g, centerBulk sq g⟩ :=
  ⟨rfl, rfl, rfl, rfl⟩

/-- C3 counterexample: when the exception occurs in the normal-derivation
step, the state is not the claimed fallback — the stored scale is the
derived value 2 (not 1) and the positions have already been recentered. -/
theorem pipeline_fallback_cex :
    (runPipeline (fun q => q) gLine (some Step.normalDerivation)).autoScale = 2 ∧
    (runPipeline (fun q => q) gLine (some Step.normalDerivation)).geometry ≠ gLine := by
  have hsc : (runPipeline (fun q => q) gLine (some Step.normalDerivation)).autoScale =
      autoScaleOf gLine := rfl
  have hgeo : (runPipeline (fun q => q) gLine (some Step.normalDerivation)).geometry =
      centerBulk (fun q => q) gLine := rfl
  have h1 : maxDimOf gLine = 1 := by
    norm_num [maxDimOf, boundingSizeOf, computeBoundingBox, boxGetSize, vsub,
      boxExpand, vmin, vmax, gLine, min_def, max_def]
  have hc : centerBulk (fun q => q) gLine =
      ⟨[⟨-(1 / 2), 0, 0⟩, ⟨1 / 2, 0, 0⟩], none, none, none⟩ := by
    norm_num [centerBulk, translate, gLine, computeBoundingBox, boxGetCenter,
      boxExpand, vmin, vmax, vadd, vneg, vscale, min_def, max_def]
  constructor
  · rw [hsc, autoScaleOf, h1]
    norm_num
  · rw [hgeo, hc]
    intro h
    have h2 := congrArg (fun g => g.positions) h
    simp only [gLine, List.cons.injEq, Vec3.mk.injEq] at h2
    norm_num at h2

/-! ### Helper lemmas about normal synthesis -/

lemma addAt_length (acc : List Vec3) (i : ℕ) (v : Vec3) :
    (addAt acc i v).length = acc.length := by
  simp [addAt]

lemma accumFace_length (ps acc : List Vec3) (t : ℕ × ℕ × ℕ) :
    (accumFace ps acc t).length = acc.length := by
  simp [accumFace, addAt_length]

lemma foldl_accumFace_length (ps : List Vec3) (ts : List (ℕ × ℕ × ℕ)) :
    ∀ acc : List Vec3, (ts.foldl (accumFace ps) acc).length = acc.length := by
  induction ts with
  | nil => intro acc; rfl
  | cons t rest ih =>
      intro acc
      rw [List.foldl_cons, ih, accumFace_length]

lemma accumNormals_length (ps : List Vec3) (idx : List ℕ) :
    (accumNormals ps idx).length = ps.length := by
  rw [accumNormals, foldl_accumFace_length, List.length_replicate]

lemma flatNormals_length (ps : List Vec3) :
    (flatNormals ps).length = ps.length := by
  match ps with
  | [] => rfl
  | [_] => rfl
  | [_, _] => rfl
  | a :: b :: c :: rest =>
      have ih := flatNormals_length rest
      simp [flatNormals, ih]
termination_by ps.length

/-- C4: normal synthesis runs exactly when the `normal` attribute is absent
and the index attribute is present; then only the normals change and one
normal per vertex is produced.  In every other case the whole buffer is
unchanged. -/
theorem normalStep_spec (sq : ℚ → ℚ) (g : Geometry) :
    (g.normals = none → g.index.isSome = true →
      ∃ l, normalStep sq g = { g with normals := some l } ∧
        l.length = g.positions.length) ∧
    (g.normals ≠ none ∨ g.index = none → normalStep sq g = g) := by
  constructor
  · intro h1 h2
    refine ⟨(match g.index with
      | some idx => accumNormals g.positions idx
      | none => flatNormals g.positions).map (vnormalize sq), ?_, ?_⟩
    · rw [normalStep, computeVertexNormals, if_pos]
      rw [h1, Option.isNone_none, Bool.true_and, h2]
    · cases hidx : g.index with
      | none => rw [hidx] at h2; exact absurd h2 (by simp)
      | some idx =>
          rw [List.length_map]
          exact accumNormals_length _ _
  · intro h
    rw [normalStep, if_neg]
    cases h with
    | inl h1 =>
        cases hn : g.normals with
        | none => exact absurd hn h1
        | some l => simp [hn]
    | inr h2 => simp [h2]

/-- Witness for C4: on a single indexed triangle without normals the step
produces exactly three normals (one per vertex); on a plain point cloud the
step is a no-op. -/
theorem normalStep_spec_witness :
    (∃ l, normalStep (fun q => q) gTri = { gTri with normals := some l } ∧
      l.length = gTri.positions.length) ∧
    normalStep (fun q => q) gLine = gLine :=
  ⟨(normalStep_spec (fun q => q) gTri).1 rfl rfl,
   (normalStep_spec (fun q => q) gLine).2 (Or.inr rfl)⟩

/-! ### Helper lemmas about recentering -/

lemma boxExpand_translate (t : Vec3) (b : Box3) (q : Vec3) :
    boxExpand ⟨vadd b.min t, vadd b.max t⟩ (vadd q t) =
      ⟨vadd (boxExpand b q).min t, vadd (boxExpand b q).max t⟩ := by
  simp only [boxExpand, vmin, vmax, vadd]
  congr 1 <;> ext <;> dsimp <;>
    first
      | exact min_add_add_right _ _ _
      | exact max_add_add_right _ _ _

lemma foldl_boxExpand_translate (t : Vec3) (l : List Vec3) :
    ∀ b : Box3,
      (l.map (fun p => vadd p t)).foldl boxExpand ⟨vadd b.min t, vadd b.max t⟩ =
        ⟨vadd (l.foldl boxExpand b).min t, vadd (l.foldl boxExpand b).max t⟩ := by
  induction l with
  | nil => intro b; rfl
  | cons q rest ih =>
      intro b
      rw [List.map_cons, List.foldl_cons, List.foldl_cons, boxExpand_translate, ih]

lemma computeBoundingBox_translate (t : Vec3) (ps : List Vec3) :
    computeBoundingBox (ps.map (fun p => vadd p t)) =
      (computeBoundingBox ps).map (fun b => ⟨vadd b.min t, vadd b.max t⟩) := by
  cases ps with
  | nil => rfl
  | cons p rest =>
      show some _ = some _
      rw [foldl_boxExpand_translate t rest ⟨p, p⟩]

/-- After `center()`, the recomputed bounding-box center is exactly the
origin (exact arithmetic; floating point only adds rounding tolerance). -/
lemma centerBulk_center_zero (sq : ℚ → ℚ) (g : Geometry) :
    boxGetCenter (computeBoundingBox (centerBulk sq g).positions) = ⟨0, 0, 0⟩ := by
  rw [centerBulk_positions]
  cases hps : g.positions with
  | nil => rfl
  | cons p rest =>
      rw [computeBoundingBox_translate]
      rw [computeBoundingBox]
      simp only [Option.map_some']
      rw [boxGetCenter]
      ext <;> simp [boxGetCenter, vadd, vneg, vscale] <;> ring

lemma vsub_zero_vec (p : Vec3) : vsub p ⟨0, 0, 0⟩ = p := by
  ext <;> simp [vsub]

lemma vadd_neg_zero_vec (p : Vec3) : vadd p (vneg ⟨0, 0, 0⟩) = p := by
  ext <;> simp [vadd, vneg]

/-- C5: recentering drives the re-measured bounding-box center exactly to
the origin, so a second recenter with the new center — the claim's own
per-position subtraction — is exactly a no-op (in exact arithmetic), and a
second bulk `center()` call moves no position either. -/
theorem recenter_remeasure_zero (sq : ℚ → ℚ) (g : Geometry) :
    boxGetCenter (computeBoundingBox (centerBulk sq g).positions) = ⟨0, 0, 0⟩ ∧
    centerManual (centerBulk sq g) = centerBulk sq g ∧
    (centerBulk sq (centerBulk sq g)).positions = (centerBulk sq g).positions := by
  have h0 := centerBulk_center_zero sq g
  refine ⟨h0, ?_, ?_⟩
  · rw [centerManual]
    rw [h0]
    simp [vsub_zero_vec]
  · rw [centerBulk_positions (g := centerBulk sq g), h0]
    simp [vadd_neg_zero_vec]

/-- C6: the bulk `geometry.center()` strategy and the explicit per-vertex
subtraction loop produce exactly equal position arrays. -/
theorem center_strategies_equiv (sq : ℚ → ℚ) (g : Geometry) :
    (centerBulk sq g).positions = (centerManual g).positions := by
  rw [centerBulk_positions, centerManual]
  have h : (fun p => vadd p (vneg (boxGetCenter (computeBoundingBox g.positions)))) =
      fun p => vsub p (boxGetCenter (computeBoundingBox g.positions)) := by
    funext p
    ext <;> simp [vadd, vneg, vsub, sub_eq_add_neg]
  rw [h]

/-- C7 (amended): both recentering strategies leave colors and index
exactly unchanged, and the explicit per-vertex loop also leaves normals
exactly unchanged; but the bulk `geometry.center()` strategy — the branch
the code takes on line 117 — routes through `applyMatrix4`, which
unit-normalizes a present normal attribute, so normals are changed exactly
when a non-unit normal is present. -/
theorem recenter_frame (sq : ℚ → ℚ) (g : Geometry) :
    (centerBulk sq g).colors = g.colors ∧ (centerBulk sq g).index = g.index ∧
    (centerBulk sq g).normals = g.normals.map (fun ns => ns.map (vnormalize sq)) ∧
    (centerManual g).colors = g.colors ∧ (centerManual g).index = g.index ∧
    (centerManual g).normals = g.normals :=
  ⟨rfl, rfl, rfl, rfl, rfl, rfl⟩

/-- C7 counterexample: a buffer holding the non-unit normal `(0,0,3)` has
that normal rescaled to the unit vector `(0,0,1)` by the recenter step
(with a square root that is exact at the occurring length), so the normals
attribute is not left unchanged. -/
theorem recenter_normals_cex :
    (centerBulk sqC gNrm).normals ≠ gNrm.normals ∧
    (centerBulk sqC gNrm).normals = some [⟨0, 0, 1⟩, ⟨0, 0, 1⟩] := by
  have h : (centerBulk sqC gNrm).normals = some [⟨0, 0, 1⟩, ⟨0, 0, 1⟩] := by
    rw [centerBulk_normals]
    norm_num [gNrm, vnormalize, vscale, sqC]
  refine ⟨?_, h⟩
  rw [h]
  simp only [gNrm, ne_eq, Option.some.injEq, List.cons.injEq, Vec3.mk.injEq]
  norm_num

/-! ### Helper lemmas: the pipeline never touches colors or the index -/

lemma normalStep_colors (sq : ℚ → ℚ) (g : Geometry) :
    (normalStep sq g).colors = g.colors := by
  rw [normalStep]
  split
  · rfl
  · rfl

lemma normalStep_index (sq : ℚ → ℚ) (g : Geometry) :
    (normalStep sq g).index = g.index := by
  rw [normalStep]
  split
  · rfl
  · rfl

lemma applyStep_colors (sq : ℚ → ℚ) (s : Step) (st : PlyState) :
    (applyStep sq s st).geometry.colors = st.geometry.colors := by
  cases s with
  | boundingVolume => rfl
  | scaleDerivation => rfl
  | recentering => rfl
  | normalDerivation => exact normalStep_colors sq st.geometry

lemma applyStep_index (sq : ℚ → ℚ) (s : Step) (st : PlyState) :
    (applyStep sq s st).geometry.index = st.geometry.index := by
  cases s with
  | boundingVolume => rfl
  | scaleDerivation => rfl
  | recentering => rfl
  | normalDerivation => exact normalStep_index sq st.geometry

lemma runSteps_colors (sq : ℚ → ℚ) (l : List Step) :
    ∀ (fa : Option Step) (st : PlyState),
      (runSteps sq l fa st).geometry.colors = st.geometry.colors := by
  induction l with
  | nil => intro fa st; rfl
  | cons s rest ih =>
      intro fa st
      rw [runSteps]
      split
      · rfl
      · rw [ih, applyStep_colors]

lemma runSteps_index (sq : ℚ → ℚ) (l : List Step) :
    ∀ (fa : Option Step) (st : PlyState),
      (runSteps sq l fa st).geometry.index = st.geometry.index := by
  induction l with
  | nil => intro fa st; rfl
  | cons s rest ih =>
      intro fa st
      rw [runSteps]
      split
      · rfl
      · rw [ih, applyStep_index]

lemma runPipeline_autoScale (sq : ℚ → ℚ) (g : Geometry) :
    (runPipeline sq g none).autoScale = autoScaleOf g := rfl

/-- C8 counterexample: on a buffer whose colors array is shorter than the
positions array the code still reports `hasVertexColors = true` (presence
only), not the claimed fallback to `false`. -/
theorem colors_mismatch_cex :
    (gMis.colors.getD []).length ≠ gMis.positions.length ∧
    hasVertexColors gMis = true ∧ hasVertexColors gMis ≠ false := by
  refine ⟨?_, rfl, ?_⟩
  · intro h
    simp [gMis] at h
  · intro h
    simp [hasVertexColors, gMis] at h

/-- C8 (amended): a colors/positions length mismatch cannot crash the
pipeline — no normalization step ever reads the colors attribute, which
survives the whole pipeline unchanged in every fault scenario — but
`hasVertexColors` is computed from attribute presence alone, so a present
mismatched colors attribute is reported as `true`, not `false`. -/
theorem colors_mismatch_amended (sq : ℚ → ℚ) (g : Geometry) (fa : Option Step)
    (h : g.colors.isSome = true) :
    hasVertexColors g = true ∧
    (runPipeline sq g fa).geometry.colors = g.colors := by
  refine ⟨h, ?_⟩
  rw [runPipeline, runSteps_colors]

/-- Witness for C8 at the concrete mismatched buffer. -/
theorem colors_mismatch_amended_witness :
    hasVertexColors gMis = true ∧
    (runPipeline (fun q => q) gMis none).geometry.colors = gMis.colors :=
  colors_mismatch_amended (fun q => q) gMis none rfl

/-- C9: the rendered object's scale is `autoScale * userScale` on all three
axes, where `autoScale` is the derived auto-fit factor of the loaded
geometry, and this holds in both rendering modes (the rendered mode agrees
with the classification of the input). -/
theorem scale_composes (sq : ℚ → ℚ) (g : Geometry) (s : ℚ) :
    (renderResult sq g s).scaleVec =
      ⟨autoScaleOf g * s, autoScaleOf g * s, autoScaleOf g * s⟩ ∧
    (renderResult sq g s).mode = classify g := by
  have hidx : (runPipeline sq g none).geometry.index = g.index := by
    rw [runPipeline, runSteps_index]
  have ha : (runPipeline sq g none).autoScale = autoScaleOf g := rfl
  rw [renderResult, renderPly, ha, hidx, classify]
  split
  · exact ⟨rfl, rfl⟩
  · exact ⟨rfl, rfl⟩

/-- C10: in point-cloud mode the material's point size is `0.02` times the
user display scale only; the derived auto-fit factor `a` does not enter it. -/
theorem pointSize_user_only (g : Geometry) (a s : ℚ) (h : g.index = none) :
    (renderPly g a s).mode = RenderMode.POINT_CLOUD ∧
    (renderPly g a s).pointSize = some (1 / 50 * s) := by
  rw [renderPly]
  rw [if_pos (by rw [h]; rfl)]
  exact ⟨rfl, rfl⟩

/-- Witness for C10: a concrete point cloud rendered with auto-fit factor 7
and user scale 3 still gets point size `0.02 * 3`. -/
theorem pointSize_user_only_witness :
    (renderPly gLine 7 3).mode = RenderMode.POINT_CLOUD ∧
    (renderPly gLine 7 3).pointSize = some (1 / 50 * 3) :=
  pointSize_user_only gLine 7 3 rfl

end Scene
